import Mathlib

/-!
Verification of the numerical core of `alpdesign` (file `alpdesign/mlp.py`).

The Python code is a JAX/haiku program.  We embed it shallowly:

* JAX arrays become (nested) `List ℝ`; elementwise array arithmetic becomes
  `zip`/`map`; `jnp.sum`/`jnp.mean` along axis 0 becomes explicit sums.
* JAX array indexing `x[i]` clamps out-of-range indices to the last valid
  index; `jGet` reproduces this.
* The numpy functions in the source are rank-polymorphic.  Where the source
  uses a function at two distinct ranks we embed the two instantiations
  separately (suffix `3` marks the rank-3 instantiation, i.e. the one with a
  genuine batch axis below the leading ensemble-member axis).
* External library facilities (haiku parameter initialisation, optax /
  jax.experimental optimizers, `jax.grad`, `jax.random`) are not code of the
  repository; they enter as explicitly quantified function parameters, so every
  theorem holds for the true library functions in particular.
-/

namespace AlpDesign

noncomputable section

/-- JAX-style array indexing: an out-of-range (non-negative) index is clamped
to the last valid index, as `jnp` arrays do. -/
def jGet {α : Type*} (l : List α) (i : Nat) (d : α) : α :=
  l.getD (min i (l.length - 1)) d

/-- `jnp.max` over a vector (the source only applies it to nonempty `Y`). -/
def jnpMax : List ℝ → ℝ
  | [] => 0
  | x :: xs => xs.foldl max x

/-- Dot product of two equal-length vectors. -/
def dot (u v : List ℝ) : ℝ := ((u.zip v).map (fun p => p.1 * p.2)).sum

/-- One `haiku` `Linear` layer: weight rows (one per output unit) and biases. -/
structure Linear where
  w : List (List ℝ)
  b : List ℝ

/-- Apply a `Linear` layer to a single feature vector (`haiku` `Linear` acts on
the last axis). -/
def Linear.applyVec (l : Linear) (x : List ℝ) : List ℝ :=
  ((l.w.zip l.b).map (fun p => dot p.1 x + p.2))

/-- `jax.nn.relu`, the default activation of `hk.nets.MLP`. -/
def relu (x : ℝ) : ℝ := max x 0

/-- `hk.nets.MLP(shape)` applied to a single feature vector: a stack of
`Linear` layers with `relu` between consecutive layers and no activation after
the last layer (`activate_final=False`, the haiku default). -/
def mlpApplyVec : List Linear → List ℝ → List ℝ
  | [], x => x
  | [l], x => l.applyVec x
  | l :: l2 :: ls, x => mlpApplyVec (l2 :: ls) ((l.applyVec x).map relu)

/-- Number of outputs of the final layer of an MLP (none for an empty MLP). -/
def mlpOutDim : List Linear → Option Nat
  | [] => none
  | [l] => some (min l.w.length l.b.length)
  | _ :: l2 :: ls => mlpOutDim (l2 :: ls)

/-- `EnsembleBlockConfig` from the source: architecture of each member MLP and
the ensemble size. -/
structure EnsembleBlockConfig where
  shape : List Nat := [2]
  model_number : Nat := 5

/-- `EnsembleBlock.__call__`.  The source builds `model_number` fresh
`hk.nets.MLP`s (hence `model_number` independent parameter sets, here the
entries of `params`) and applies the `i`-th one to the slice `x[i]` of the
input, stacking the results along a new leading member axis:
`jnp.array([hk.nets.MLP(self.config.shape)(x[i]) for i in range(self.config.model_number)])`.
The member application is rank-polymorphic in the source, so we take it as the
argument `memberApply`. -/
def ensembleBlockCall {α β : Type*} (memberApply : List Linear → α → β)
    (cfg : EnsembleBlockConfig) (params : List (List Linear))
    (x : List α) (dα : α) : List β :=
  (List.range cfg.model_number).map
    (fun i => memberApply (jGet params i []) (jGet x i dα))

/-- `EnsembleBlock.__call__` at rank 3: each slice `x[i]` is a batch of feature
vectors, and the member MLP maps over the batch. -/
def ensembleBlockBatch (cfg : EnsembleBlockConfig) (params : List (List Linear))
    (x : List (List (List ℝ))) : List (List (List ℝ)) :=
  ensembleBlockCall (fun p batch => batch.map (mlpApplyVec p)) cfg params x []

/-- `model_reduce` at rank 2 (ensemble output of shape `(model_number, 2)`, as
produced on the trainer's tiled single example and inside `bayesian_ei`):
`mu = jnp.mean(out[..., 0], axis=0)`,
`std = jnp.mean(out[..., 1] + out[..., 0]**2, axis=0) - mu**2`. -/
def model_reduce2 (out : List (List ℝ)) : ℝ × ℝ :=
  let mu := ((out.map (fun v => v.getD 0 0)).sum) / (out.length : ℝ)
  let s := ((out.map (fun v => v.getD 1 0 + (v.getD 0 0) ^ 2)).sum) / (out.length : ℝ)
  (mu, s - mu ^ 2)

/-- `jnp.mean(xs, axis=0)` for a rectangular rank-2 array given as a list of
rows: entry `e` of the result is the mean over the rows of entry `e`. -/
def axis0mean (xs : List (List ℝ)) : List ℝ :=
  (List.range (xs.headD []).length).map
    (fun e => ((xs.map (fun r => r.getD e 0)).sum) / (xs.length : ℝ))

/-- `jnp.sum(xs, axis=0)` for a rectangular rank-2 array given as a list of
rows. -/
def axis0sum (xs : List (List ℝ)) : List ℝ :=
  (List.range (xs.headD []).length).map
    (fun e => (xs.map (fun r => r.getD e 0)).sum)

/-- `model_reduce` at rank 3 (ensemble output of shape
`(model_number, batch_size, 2)`): the same two lines of the source, now with a
per-example result. -/
def model_reduce (out : List (List (List ℝ))) : List ℝ × List ℝ :=
  let mu := axis0mean (out.map (fun m => m.map (fun v => v.getD 0 0)))
  let s := axis0mean
    (out.map (fun m => m.map (fun v => v.getD 1 0 + (v.getD 0 0) ^ 2)))
  (mu, (s.zip mu).map (fun p => p.1 - p.2 ^ 2))

/-- `_deep_ensemble_loss` at rank 2 (the shape at which the trainer calls it:
`out = forward.apply(params, seqs)` has shape `(model_number, 2)`).  The
Gaussian negative log likelihood
`0.5*jnp.log(jnp.abs(stds)) + 0.5*(labels-means)**2/jnp.abs(stds)` is summed
over axis 0 (the member axis), here yielding a scalar.  `forward` is a
function argument in the source as well. -/
def deepEnsembleLoss {P : Type*} (forward : P → List (List ℝ) → List (List ℝ))
    (params : P) (seqs : List (List ℝ)) (labels : List ℝ) : ℝ :=
  let out := forward params seqs
  let means := out.map (fun v => v.getD 0 0)
  let stds := out.map (fun v => v.getD 1 0)
  ((((means.zip stds).zip labels).map
    (fun q => 0.5 * Real.log |q.1.2| + 0.5 * (q.2 - q.1.1) ^ 2 / |q.1.2|)).sum)

/-- The fast-gradient-sign perturbed input of `_adv_loss_func`:
`seqs + epsilon * jnp.sign(grad_inputs)`, elementwise over a rank-2 array
(`jnp.sign` is `0` at `0`, as `Real.sign` is). -/
def fgsPerturb (epsilon : ℝ) (seqs g : List (List ℝ)) : List (List ℝ) :=
  (seqs.zip g).map
    (fun p => (p.1.zip p.2).map (fun q => q.1 + epsilon * Real.sign q.2))

/-- `_adv_loss_func` at rank 2.  `gradFn` models
`jax.grad(_deep_ensemble_loss, 2)(forward, params, seqs, labels)` — the
reverse-mode derivative of the base loss with respect to the input batch,
which is JAX library functionality, hence a parameter: every theorem below
holds for the true gradient function in particular. -/
def advLossFunc {P : Type*} (forward : P → List (List ℝ) → List (List ℝ))
    (gradFn : P → List (List ℝ) → List ℝ → List (List ℝ))
    (params : P) (seqs : List (List ℝ)) (labels : List ℝ) : ℝ :=
  let epsilon : ℝ := 1e-5
  let grad_inputs := gradFn params seqs labels
  let seqs_ := fgsPerturb epsilon seqs grad_inputs
  deepEnsembleLoss forward params seqs labels
    + deepEnsembleLoss forward params seqs_ labels

/-- `_deep_ensemble_loss` at rank 3 (ensemble output of shape
`(model_number, batch_size, 2)`, labels of shape `(batch_size,)` broadcast
across the member axis).  `jnp.sum(n_log_likelihoods, axis=0)` sums over the
member axis only, leaving one value per example. -/
def deepEnsembleLoss3 {P : Type*}
    (forward3 : P → List (List (List ℝ)) → List (List (List ℝ)))
    (params : P) (seqs : List (List (List ℝ))) (labels : List ℝ) : List ℝ :=
  let out := forward3 params seqs
  let nll := out.map (fun memb => (memb.zip labels).map
    (fun q => 0.5 * Real.log |q.1.getD 1 0|
      + 0.5 * (q.2 - q.1.getD 0 0) ^ 2 / |q.1.getD 1 0|))
  axis0sum nll

/-- The fast-gradient-sign perturbation at rank 3. -/
def fgsPerturb3 (epsilon : ℝ) (seqs g : List (List (List ℝ))) :
    List (List (List ℝ)) :=
  (seqs.zip g).map (fun p => fgsPerturb epsilon p.1 p.2)

/-- `_adv_loss_func` at rank 3: the two per-example loss vectors are added
elementwise (that is what `+` does on equal-shape JAX arrays). -/
def advLossFunc3 {P : Type*}
    (forward3 : P → List (List (List ℝ)) → List (List (List ℝ)))
    (gradFn3 : P → List (List (List ℝ)) → List ℝ → List (List (List ℝ)))
    (params : P) (seqs : List (List (List ℝ))) (labels : List ℝ) : List ℝ :=
  let epsilon : ℝ := 1e-5
  let g := gradFn3 params seqs labels
  let seqs_ := fgsPerturb3 epsilon seqs g
  let l1 := deepEnsembleLoss3 forward3 params seqs labels
  let l2 := deepEnsembleLoss3 forward3 params seqs_ labels
  (l1.zip l2).map (fun p => p.1 + p.2)

/-- Standard normal probability density, `jax.scipy.stats.norm.pdf`. -/
def normPdf (z : ℝ) : ℝ := Real.exp (-(z ^ 2) / 2) / Real.sqrt (2 * Real.pi)

/-- Standard normal cumulative distribution, `jax.scipy.stats.norm.cdf`. -/
def normCdf (z : ℝ) : ℝ := ∫ t in Set.Iic z, normPdf t

/-- `bayesian_ei` from the source.  Note the code returns
`-(mu-best-epsilon)*norm.cdf(z) - std*norm.pdf(z)` — the negation of the
classic Expected-Improvement value — and that `std` is the second component of
`model_reduce`'s joint estimate, used directly (no square root). -/
def bayesian_ei {P : Type*} (f : P → List (List ℝ) → List (List ℝ))
    (params : P) (init_x : List (List ℝ)) (Y : List ℝ) : ℝ :=
  let out := f params init_x
  let joint_out := model_reduce2 out
  let mu := joint_out.1
  let std := joint_out.2
  let best := jnpMax Y
  let epsilon : ℝ := 0.1
  let z := (mu - best - epsilon) / std
  let score := -(mu - best - epsilon) * normCdf z - std * normPdf z
  score

/-- The classic Expected-Improvement value exactly as the specification words
it: `(mean-best-epsilon)*Φ(z) + std*φ(z)` with `z = (mean-best-epsilon)/std`,
`best = max(observedLabels)`, `epsilon = 0.1`, and the pair `(mean, std)`
being the reducer's joint estimate on the candidate.  This definition follows
the spec's words (not the source) and exists to be compared with
`bayesian_ei`. -/
def expectedImprovementSpec {P : Type*} (f : P → List (List ℝ) → List (List ℝ))
    (params : P) (init_x : List (List ℝ)) (Y : List ℝ) : ℝ :=
  let joint := model_reduce2 (f params init_x)
  let best := jnpMax Y
  let z := (joint.1 - best - 0.1) / joint.2
  (joint.1 - best - 0.1) * normCdf z + joint.2 * normPdf z

/-- `shuffle_in_unison`.  `perm` models `jax.random.permutation` (JAX library
functionality).  The Python `assert len(a) == len(b)` is the error branch;
on success both lists are reindexed through the same permutation `p`:
`jnp.array([a[i] for i in p]), jnp.array([b[i] for i in p])`. -/
def shuffle_in_unison {K α β : Type*} (perm : K → Nat → List Nat)
    (da : α) (db : β) (key : K) (a : List α) (b : List β) :
    Except String (List α × List β) :=
  if a.length = b.length then
    let p := perm key a.length
    .ok (p.map (fun i => a.getD i da), p.map (fun i => b.getD i db))
  else .error "shuffle_in_unison length assertion failed"

section Trainer

variable {P S K : Type*}
/- `forward.apply` (rank-2 instantiation, as used on the tiled examples). -/
variable (forward : P → List (List ℝ) → List (List ℝ))
/- `jax.grad(_deep_ensemble_loss, 2)` — gradient with respect to the inputs,
used inside `_adv_loss_func`. -/
variable (gradInput : P → List (List ℝ) → List ℝ → List (List ℝ))
/- `jax.grad(_adv_loss_func, 1)` — gradient with respect to the parameters;
its result has the (opaque) shape of the parameters. -/
variable (gradAdv : P → List (List ℝ) → List ℝ → P)
/- `forward.init` (haiku parameter initialisation from a key and a sample
input). -/
variable (initFn : K → List (List ℝ) → P)
/- `jax.random.split` with `num=2`. -/
variable (split : K → K × K)
/- `jax.random.permutation`. -/
variable (perm : K → Nat → List Nat)
/- `opt_init` and `opt_update` of
`optax.chain(optax.scale_by_adam(b1=0.8, b2=0.9, eps=1e-4), optax.scale(-1e-2))`,
and `optax.apply_updates`; the parameter pytree is opaque, so these optax
library functions are parameters. -/
variable (optInit : P → S)
variable (optUpdate : P → S → P → P × S)
variable (applyUpdates : P → P → P)

/-- The jitted `train_step` closure of `ensemble_train`: tile the single
example and its label 5×, take the gradient of the adversarial loss with
respect to the parameters, apply one optimizer update, and recompute the loss
with the updated parameters. -/
def train_step (opt_state : S) (params : P) (seq : List ℝ) (label : ℝ) :
    S × P × ℝ :=
  let seq_tile := List.replicate 5 seq
  let label_tile := List.replicate 5 label
  let grad := gradAdv params seq_tile label_tile
  let us := optUpdate grad opt_state params
  let params2 := applyUpdates params us.1
  let loss := advLossFunc forward gradInput params2 seq_tile label_tile
  (us.2, params2, loss)

/-- The validation pass of `ensemble_train`: each validation example is tiled
5×, the adversarial losses are accumulated over `j in range(len(val_labels))`
and divided by `len(val_labels)`.  The source indexes `val_seqs[j]` by the
length of `val_labels`; on JAX arrays an out-of-range index clamps, which
`jGet` reproduces — the two lengths are never compared. -/
def valLoss (params : P) (val_seqs : List (List ℝ)) (val_labels : List ℝ) : ℝ :=
  (((List.range val_labels.length).map (fun j =>
      advLossFunc forward gradInput params
        (List.replicate 5 (jGet val_seqs j []))
        (List.replicate 5 (jGet val_labels j 0)))).sum) / (val_labels.length : ℝ)

/-- One epoch's inner loop of `ensemble_train` over the shuffled examples:
returns the final optimizer state and parameters together with the training-
and validation-loss entries appended during the epoch (one of each per
example). -/
def epochSteps (val_seqs : List (List ℝ)) (val_labels : List ℝ) :
    S × P → List (List ℝ × ℝ) → (S × P) × List ℝ × List ℝ
  | sp, [] => (sp, [], [])
  | sp, (seq, label) :: rest =>
    let r := train_step forward gradInput gradAdv optUpdate applyUpdates
      sp.1 sp.2 seq label
    let vloss := valLoss forward gradInput r.2.1 val_seqs val_labels
    let r2 := epochSteps val_seqs val_labels (r.1, r.2.1) rest
    (r2.1, r.2.2 :: r2.2.1, vloss :: r2.2.2)

/-- The outer epoch loop of `ensemble_train`, with `n` epochs remaining: split
the key, shuffle the training pairs in unison (the length assertion may fail
there), run the per-example steps, recurse with the updated state, and
concatenate the loss histories in epoch order. -/
def epochLoop (seqs : List (List ℝ)) (labels : List ℝ)
    (val_seqs : List (List ℝ)) (val_labels : List ℝ) :
    Nat → K → S × P → Except String ((S × P) × List ℝ × List ℝ)
  | 0, _, sp => .ok (sp, [], [])
  | n + 1, key, sp =>
    let key2 := (split key).1
    match shuffle_in_unison perm ([] : List ℝ) (0 : ℝ) key2 seqs labels with
    | .error e => .error e
    | .ok sls =>
      let r := epochSteps forward gradInput gradAdv optUpdate applyUpdates
        val_seqs val_labels sp (sls.1.zip sls.2)
      match epochLoop seqs labels val_seqs val_labels n key2 r.1 with
      | .error e => .error e
      | .ok rr => .ok (rr.1, r.2.1 ++ rr.2.1, r.2.2 ++ rr.2.2)

/-- `ensemble_train` (the `n_step = 3` variant of the source): split the key,
initialise the ensemble parameters from the first sub-key and the training
inputs, initialise the optimizer state, and run 3 epochs; returns the final
parameters and the two loss histories. -/
def ensemble_train (key : K) (seqs : List (List ℝ)) (labels : List ℝ)
    (val_seqs : List (List ℝ)) (val_labels : List ℝ) :
    Except String (P × List ℝ × List ℝ) :=
  let n_step := 3
  let key1 := (split key).1
  let params := initFn key1 seqs
  let opt_state := optInit params
  match epochLoop forward gradInput gradAdv split perm optUpdate applyUpdates
      seqs labels val_seqs val_labels n_step key1 (opt_state, params) with
  | .error e => .error e
  | .ok r => .ok (r.1.2, r.2.1, r.2.2)

end Trainer

section BayesOpt

variable {P OS K : Type*}
/- `jax.random.PRNGKey`. -/
variable (prngKeyFn : Nat → K)
/- `jax.random.split` with `num=2`. -/
variable (splitK : K → K × K)
/- `jax.random.normal` at a two-dimensional shape. -/
variable (randn : K → Nat → Nat → List (List ℝ))
/- `opt_init`, `opt_update`, `get_params` of
`jax.experimental.optimizers.adam(step_size=1e-2, b1=0.8, b2=0.9, eps=1e-5)`
acting on the candidate embedding (library functions, hence parameters). -/
variable (adamInit : List (List ℝ) → OS)
variable (adamUpdate : Nat → List (List ℝ) → OS → OS)
variable (getParams : OS → List (List ℝ))
/- The gradient half of `jax.value_and_grad(bayesian_ei, 2)` — derivative of
the acquisition score with respect to the candidate embedding. -/
variable (gradEI : (P → List (List ℝ) → List (List ℝ)) → P →
  List (List ℝ) → List ℝ → List (List ℝ))

/-- The initial candidate embedding of `bayes_opt`:
`key = jax.random.PRNGKey(0); key, _ = jax.random.split(key, num=2);
init_x = jax.random.normal(key, shape=(1, 1900))`.  It is a function of the
library's random primitives alone — `bayes_opt` has no seed argument, and
none of `f`, `params`, `labels` occur here. -/
def bayesOptInitX : List (List ℝ) :=
  randn ((splitK (prngKeyFn 0)).1) 1 1900

/-- The jitted `step` closure of `bayes_opt`: read the candidate from the
optimizer state, compute the value and gradient of `bayesian_ei` at it, and
apply one Adam update.  The value is returned but unused by the caller. -/
def bayesOptStep (f : P → List (List ℝ) → List (List ℝ)) (params : P)
    (labels : List ℝ) (i : Nat) (opt_state : OS) : OS × ℝ :=
  let x := getParams opt_state
  let loss := bayesian_ei f params x labels
  let g := gradEI f params x labels
  (adamUpdate i g opt_state, loss)

/-- `bayes_opt`: 50 gradient steps on the candidate embedding starting from
`bayesOptInitX`, returning the final candidate. -/
def bayes_opt (f : P → List (List ℝ) → List (List ℝ)) (params : P)
    (labels : List ℝ) : List (List ℝ) :=
  let init_x := bayesOptInitX prngKeyFn splitK randn
  let opt_state := adamInit init_x
  let final := (List.range 50).foldl
    (fun st i =>
      (bayesOptStep adamUpdate getParams gradEI f params labels i st).1)
    opt_state
  getParams final

end BayesOpt

/-! ### Generic list lemmas used by several proofs -/

theorem jGet_of_lt {α : Type*} (l : List α) (i : Nat) (d : α)
    (h : i < l.length) : jGet l i d = l.getD i d := by
  unfold jGet
  congr 1
  omega

theorem getD_map_of_lt {α β : Type*} (l : List α) (f : α → β) (d : β) (d' : α)
    (m : Nat) (h : m < l.length) : (l.map f).getD m d = f (l.getD m d') := by
  rw [List.getD_eq_getElem _ _ (by simpa using h), List.getD_eq_getElem _ _ h,
    List.getElem_map]

theorem map_sum_range {α : Type*} (l : List α) (g : α → ℝ) (d : α) :
    (l.map g).sum = ∑ m ∈ Finset.range l.length, g (l.getD m d) := by
  induction l with
  | nil => simp
  | cons x xs ih =>
    simp only [List.map_cons, List.sum_cons, List.length_cons,
      Finset.sum_range_succ', List.getD_cons_succ, List.getD_cons_zero, ih]
    ring

theorem mlpApplyVec_length (p : List Linear) :
    ∀ n x, mlpOutDim p = some n → (mlpApplyVec p x).length = n := by
  induction p with
  | nil => intro n x h; simp [mlpOutDim] at h
  | cons l ls ih =>
    intro n x h
    cases ls with
    | nil =>
      simp only [mlpOutDim, Option.some.injEq] at h
      simp [mlpApplyVec, Linear.applyVec, ← h]
    | cons l2 ls2 =>
      rw [show mlpOutDim (l :: l2 :: ls2) = mlpOutDim (l2 :: ls2) from rfl] at h
      exact ih n _ h

theorem axis0mean_length (xs : List (List ℝ)) :
    (axis0mean xs).length = (xs.headD []).length := by
  simp [axis0mean]

theorem axis0mean_getD (xs : List (List ℝ)) (e : Nat)
    (h : e < (xs.headD []).length) :
    (axis0mean xs).getD e 0
      = ((xs.map (fun r => r.getD e 0)).sum) / (xs.length : ℝ) := by
  unfold axis0mean
  rw [List.getD_eq_getElem _ _ (by simpa using h)]
  simp

theorem axis0sum_length (xs : List (List ℝ)) :
    (axis0sum xs).length = (xs.headD []).length := by
  simp [axis0sum]

/-! ### C1 -/

/-- C1: under the ensemble input convention of the source (the module's own
comment: `x is of shape ([ensemble_num, *seqs.shape])`, i.e. the batch is
replicated along a new leading member axis), each of the `model_number`
member networks — each with its own parameter set, the entries of `params` —
is applied independently to the same full batch, and the per-member results
are stacked in member order along a new leading axis, so the output has shape
`(model_number, batch_size, 2)` when every member MLP has a 2-dimensional
output layer. -/
theorem ensemble_forward_shape (cfg : EnsembleBlockConfig)
    (params : List (List Linear)) (b : List (List ℝ))
    (hp : params.length = cfg.model_number)
    (h2 : ∀ p ∈ params, mlpOutDim p = some 2) :
    ensembleBlockBatch cfg params (List.replicate cfg.model_number b)
        = params.map (fun p => b.map (mlpApplyVec p))
      ∧ (ensembleBlockBatch cfg params
          (List.replicate cfg.model_number b)).length = cfg.model_number
      ∧ ∀ memb ∈ ensembleBlockBatch cfg params
          (List.replicate cfg.model_number b),
          memb.length = b.length ∧ ∀ v ∈ memb, v.length = 2 := by
  have hmain : ensembleBlockBatch cfg params (List.replicate cfg.model_number b)
      = params.map (fun p => b.map (mlpApplyVec p)) := by
    unfold ensembleBlockBatch ensembleBlockCall
    rw [← hp]
    apply List.ext_getElem
    · simp
    · intro i h1 h2'
      simp only [List.getElem_map, List.getElem_range]
      rw [jGet_of_lt _ _ _ (by simpa using h2'),
        jGet_of_lt _ _ _ (by simpa [← hp] using h2'),
        List.getD_eq_getElem _ _ (by simpa [← hp] using h2'),
        List.getD_eq_getElem _ _ (by simpa using h2')]
      simp
  refine ⟨hmain, ?_, ?_⟩
  · simp [ensembleBlockBatch, ensembleBlockCall]
  · intro memb hmemb
    rw [hmain] at hmemb
    obtain ⟨p, hpmem, rfl⟩ := List.mem_map.mp hmemb
    refine ⟨by simp, ?_⟩
    intro v hv
    obtain ⟨xv, _, rfl⟩ := List.mem_map.mp hv
    exact mlpApplyVec_length p 2 xv (h2 p hpmem)

/-- Witness for C1 at a concrete 1-member ensemble and a 2-example batch of
1-dimensional inputs. -/
theorem ensemble_forward_shape_witness :
    (([[Linear.mk [[1], [0]] [0, 0]]] : List (List Linear)).length
        = (EnsembleBlockConfig.mk [2] 1).model_number
      ∧ (∀ p ∈ ([[Linear.mk [[1], [0]] [0, 0]]] : List (List Linear)),
          mlpOutDim p = some 2))
    ∧ (ensembleBlockBatch (EnsembleBlockConfig.mk [2] 1)
          [[Linear.mk [[1], [0]] [0, 0]]]
          (List.replicate (EnsembleBlockConfig.mk [2] 1).model_number
            ([[1], [2]] : List (List ℝ)))
        = ([[Linear.mk [[1], [0]] [0, 0]]] : List (List Linear)).map
            (fun p => ([[1], [2]] : List (List ℝ)).map (mlpApplyVec p))
      ∧ (ensembleBlockBatch (EnsembleBlockConfig.mk [2] 1)
          [[Linear.mk [[1], [0]] [0, 0]]]
          (List.replicate (EnsembleBlockConfig.mk [2] 1).model_number
            ([[1], [2]] : List (List ℝ)))).length
          = (EnsembleBlockConfig.mk [2] 1).model_number
      ∧ ∀ memb ∈ ensembleBlockBatch (EnsembleBlockConfig.mk [2] 1)
          [[Linear.mk [[1], [0]] [0, 0]]]
          (List.replicate (EnsembleBlockConfig.mk [2] 1).model_number
            ([[1], [2]] : List (List ℝ))),
          memb.length = ([[1], [2]] : List (List ℝ)).length
            ∧ ∀ v ∈ memb, v.length = 2) := by
  have h2 : ∀ p ∈ ([[Linear.mk [[1], [0]] [0, 0]]] : List (List Linear)),
      mlpOutDim p = some 2 := by
    intro p hp
    simp only [List.mem_singleton] at hp
    subst hp
    rfl
  exact ⟨⟨rfl, h2⟩, ensemble_forward_shape _ _ _ rfl h2⟩

/-! ### C4 -/

/-- C4: for every nonempty rectangular `EnsembleOutput` tensor, `model_reduce`
returns per example a joint mean equal to the average over the members of
`out[..., 0]`, and a joint variance equal to the average over the members of
`out[..., 1] + out[..., 0]^2` minus the square of the joint mean. -/
theorem head_length_of_rect (out : List (List (List ℝ))) (B : Nat)
    (hne : out ≠ []) (hB : ∀ m ∈ out, m.length = B) (g : List ℝ → ℝ) :
    ((out.map (fun m => m.map g)).headD []).length = B := by
  cases out with
  | nil => exact absurd rfl hne
  | cons m0 rest =>
    simp only [List.map_cons, List.headD_cons, List.length_map]
    exact hB m0 (by simp)

theorem axis0mean_map_getD (out : List (List (List ℝ))) (B : Nat)
    (hne : out ≠ []) (hB : ∀ m ∈ out, m.length = B) (e : Nat) (he : e < B)
    (g : List ℝ → ℝ) :
    (axis0mean (out.map (fun m => m.map g))).getD e 0
      = (∑ m ∈ Finset.range out.length, g ((out.getD m []).getD e []))
          / (out.length : ℝ) := by
  rw [axis0mean_getD _ _ (by rw [head_length_of_rect out B hne hB g]; exact he)]
  simp only [List.length_map]
  congr 1
  rw [List.map_map, map_sum_range _ _ []]
  apply Finset.sum_congr rfl
  intro m hm
  simp only [Finset.mem_range] at hm
  have hmem : out.getD m [] ∈ out := by
    rw [List.getD_eq_getElem _ _ hm]
    exact List.getElem_mem hm
  simp only [Function.comp_apply]
  rw [getD_map_of_lt _ g 0 [] e (by rw [hB _ hmem]; exact he)]

theorem axis0mean_map_length (out : List (List (List ℝ))) (B : Nat)
    (hne : out ≠ []) (hB : ∀ m ∈ out, m.length = B) (g : List ℝ → ℝ) :
    (axis0mean (out.map (fun m => m.map g))).length = B := by
  rw [axis0mean_length]
  exact head_length_of_rect out B hne hB g

/-- C4: for every nonempty rectangular `EnsembleOutput` tensor, `model_reduce`
returns per example a joint mean equal to the average over the members of
`out[..., 0]`, and a joint variance equal to the average over the members of
`out[..., 1] + out[..., 0]^2` minus the square of the joint mean. -/
theorem model_reduce_moments (out : List (List (List ℝ))) (B : Nat)
    (hne : out ≠ []) (hB : ∀ m ∈ out, m.length = B) (e : Nat) (he : e < B) :
    (model_reduce out).1.getD e 0
        = (∑ m ∈ Finset.range out.length,
            ((out.getD m []).getD e []).getD 0 0) / (out.length : ℝ)
      ∧ (model_reduce out).2.getD e 0
        = (∑ m ∈ Finset.range out.length,
            (((out.getD m []).getD e []).getD 1 0
              + (((out.getD m []).getD e []).getD 0 0) ^ 2)) / (out.length : ℝ)
          - ((∑ m ∈ Finset.range out.length,
              ((out.getD m []).getD e []).getD 0 0) / (out.length : ℝ)) ^ 2 := by
  constructor
  · exact axis0mean_map_getD out B hne hB e he (fun v => v.getD 0 0)
  · show (((axis0mean (out.map (fun m => m.map
        (fun v => v.getD 1 0 + (v.getD 0 0) ^ 2)))).zip
        (axis0mean (out.map (fun m => m.map (fun v => v.getD 0 0))))).map
        (fun p => p.1 - p.2 ^ 2)).getD e 0 = _
    have hslen := axis0mean_map_length out B hne hB
      (fun v => v.getD 1 0 + (v.getD 0 0) ^ 2)
    have hmulen := axis0mean_map_length out B hne hB (fun v => v.getD 0 0)
    have hzlen : e < ((axis0mean (out.map (fun m => m.map
        (fun v => v.getD 1 0 + (v.getD 0 0) ^ 2)))).zip
        (axis0mean (out.map (fun m => m.map (fun v => v.getD 0 0))))).length := by
      rw [List.length_zip, hslen, hmulen]
      simpa using he
    rw [getD_map_of_lt _ _ 0 (0, 0) e hzlen]
    rw [List.getD_eq_getElem _ _ hzlen, List.getElem_zip]
    rw [← List.getD_eq_getElem _ (0 : ℝ), ← List.getD_eq_getElem _ (0 : ℝ)]
    rw [axis0mean_map_getD out B hne hB e he
      (fun v => v.getD 1 0 + (v.getD 0 0) ^ 2),
      axis0mean_map_getD out B hne hB e he (fun v => v.getD 0 0)]

/-- Witness for C4: a two-member ensemble output with one example,
`out = [[[1, 2]], [[3, 4]]]`: joint mean `(1+3)/2 = 2` and joint variance
`((2+1) + (4+9))/2 - 2² = 4`. -/
theorem model_reduce_moments_witness :
    (model_reduce ([[[1, 2]], [[3, 4]]] : List (List (List ℝ)))).1.getD 0 0 = 2
    ∧ (model_reduce ([[[1, 2]], [[3, 4]]] : List (List (List ℝ)))).2.getD 0 0
        = 4 := by
  have h := model_reduce_moments ([[[1, 2]], [[3, 4]]] : List (List (List ℝ)))
    1 (by simp) (by intro m hm; fin_cases hm <;> rfl) 0 (by norm_num)
  constructor
  · rw [h.1]
    norm_num [Finset.sum_range_succ, List.getD]
  · rw [h.2]
    norm_num [Finset.sum_range_succ, List.getD]

/-! ### C2 -/

theorem nll_sum (out : List (List ℝ)) :
    ∀ labels : List ℝ, out.length = labels.length →
    ((((out.map (fun v => v.getD 0 0)).zip
        (out.map (fun v => v.getD 1 0))).zip labels).map
      (fun q => 0.5 * Real.log |q.1.2| + 0.5 * (q.2 - q.1.1) ^ 2 / |q.1.2|)).sum
      = ∑ m ∈ Finset.range labels.length,
          (0.5 * Real.log |(out.getD m []).getD 1 0|
            + 0.5 * (labels.getD m 0 - (out.getD m []).getD 0 0) ^ 2
              / |(out.getD m []).getD 1 0|) := by
  induction out with
  | nil =>
    intro labels h
    rw [List.length_eq_zero.mp h.symm]
    simp
  | cons v vs ih =>
    intro labels h
    cases labels with
    | nil => simp at h
    | cons y ys =>
      simp only [List.map_cons, List.zip_cons_cons, List.sum_cons,
        List.length_cons, Finset.sum_range_succ', List.getD_cons_succ,
        List.getD_cons_zero]
      rw [ih ys (by simpa using h)]
      ring

theorem deepEnsembleLoss_eq_sum {P : Type*}
    (forward : P → List (List ℝ) → List (List ℝ)) (params : P)
    (seqs : List (List ℝ)) (labels : List ℝ)
    (h : (forward params seqs).length = labels.length) :
    deepEnsembleLoss forward params seqs labels
      = ∑ m ∈ Finset.range labels.length,
          (0.5 * Real.log |((forward params seqs).getD m []).getD 1 0|
            + 0.5 * (labels.getD m 0
                - ((forward params seqs).getD m []).getD 0 0) ^ 2
              / |((forward params seqs).getD m []).getD 1 0|) := by
  unfold deepEnsembleLoss
  exact nll_sum (forward params seqs) labels h

/-- C2: the adversarial loss is `D(seqs) + D(seqs')` where
`seqs' = seqs + 1e-5 * sign(∇_seqs D)` is the fast-gradient-sign perturbed
batch (`gradFn` standing for the reverse-mode derivative `jax.grad` computes),
and `D` is the Gaussian negative log likelihood
`0.5*log|spread| + 0.5*(label-mean)²/|spread|` summed — not averaged — over
the ensemble-member axis. -/
theorem adv_loss_formula {P : Type*}
    (forward : P → List (List ℝ) → List (List ℝ))
    (gradFn : P → List (List ℝ) → List ℝ → List (List ℝ)) (params : P)
    (seqs : List (List ℝ)) (labels : List ℝ)
    (h1 : (forward params seqs).length = labels.length)
    (h2 : (forward params
        (fgsPerturb 1e-5 seqs (gradFn params seqs labels))).length
      = labels.length) :
    advLossFunc forward gradFn params seqs labels
      = (∑ m ∈ Finset.range labels.length,
          (0.5 * Real.log |((forward params seqs).getD m []).getD 1 0|
            + 0.5 * (labels.getD m 0
                - ((forward params seqs).getD m []).getD 0 0) ^ 2
              / |((forward params seqs).getD m []).getD 1 0|))
        + (∑ m ∈ Finset.range labels.length,
          (0.5 * Real.log |((forward params
                (fgsPerturb 1e-5 seqs (gradFn params seqs labels))).getD m
                []).getD 1 0|
            + 0.5 * (labels.getD m 0
                - ((forward params
                    (fgsPerturb 1e-5 seqs
                      (gradFn params seqs labels))).getD m []).getD 0 0) ^ 2
              / |((forward params
                  (fgsPerturb 1e-5 seqs
                    (gradFn params seqs labels))).getD m []).getD 1 0|)) := by
  show deepEnsembleLoss forward params seqs labels
    + deepEnsembleLoss forward params
        (fgsPerturb 1e-5 seqs (gradFn params seqs labels)) labels = _
  rw [deepEnsembleLoss_eq_sum forward params seqs labels h1,
    deepEnsembleLoss_eq_sum forward params
      (fgsPerturb 1e-5 seqs (gradFn params seqs labels)) labels h2]

/-- Witness for C2: a constant one-member forward function with mean 0 and
spread 1 and label 0 gives adversarial loss `0`. -/
theorem adv_loss_formula_witness :
    advLossFunc (fun (_ : Unit) _ => [[0, 1]]) (fun _ _ _ => [[1]]) ()
      [[0]] [0] = 0 := by
  rw [adv_loss_formula (fun (_ : Unit) _ => [[0, 1]]) (fun _ _ _ => [[1]]) ()
    [[0]] [0] rfl rfl]
  norm_num [Finset.sum_range_succ, List.getD]

/-! ### C3 -/

/-- C3 counterexample: at the one-member ensemble output `[[2, 1]]` (joint
mean 2, joint variance 1) and observed labels `[0.1]`, the classic
Expected-Improvement value is strictly positive while `bayesian_ei` returns
its negation, so the two differ. -/
theorem bayesian_ei_not_classic_ei :
    bayesian_ei (fun (_ : Unit) _ => [[2, 1]]) () [[0]] [0.1]
      ≠ expectedImprovementSpec (fun (_ : Unit) _ => [[2, 1]]) () [[0]] [0.1] := by
  have hneg : bayesian_ei (fun (_ : Unit) _ => [[2, 1]]) () [[0]] [0.1]
      = -(expectedImprovementSpec (fun (_ : Unit) _ => [[2, 1]]) () [[0]]
          [0.1]) := by
    simp only [bayesian_ei, expectedImprovementSpec]
    ring
  have hEI : expectedImprovementSpec (fun (_ : Unit) _ => [[2, 1]]) () [[0]]
      [0.1] = (1.8 : ℝ) * normCdf 1.8 + 1 * normPdf 1.8 := by
    simp only [expectedImprovementSpec, model_reduce2, jnpMax]
    norm_num [List.getD]
  have hcdf : (0 : ℝ) ≤ normCdf 1.8 := by
    unfold normCdf
    apply MeasureTheory.setIntegral_nonneg measurableSet_Iic
    intro t _
    unfold normPdf
    positivity
  have hpdf : (0 : ℝ) < normPdf 1.8 := by
    unfold normPdf
    positivity
  rw [hneg, hEI]
  intro hcontra
  nlinarith

/-- C3 (amended): the acquisition function returns the NEGATION of the classic
Expected-Improvement value: `-((mu-best-epsilon)*Φ(z) + std*φ(z))` with
`z = (mu-best-epsilon)/std`, `best = max(Y)`, `epsilon = 0.1` and `(mu, std)`
the reducer's joint estimate on the candidate. -/
theorem bayesian_ei_eq_neg_ei {P : Type*}
    (f : P → List (List ℝ) → List (List ℝ)) (params : P)
    (init_x : List (List ℝ)) (Y : List ℝ) :
    bayesian_ei f params init_x Y
      = -(expectedImprovementSpec f params init_x Y) := by
  simp only [bayesian_ei, expectedImprovementSpec]
  ring

/-! ### C9 -/

/-- C9: the quantity `bayesian_ei` uses as the denominator of `z` and as the
multiplier of the normal-PDF term is the second output of `model_reduce` —
the mixture variance (average of `spread + mean²` over the members minus the
squared joint mean) — used directly, with no square root taken. -/
theorem bayesian_ei_uses_variance {P : Type*}
    (f : P → List (List ℝ) → List (List ℝ)) (params : P)
    (x : List (List ℝ)) (Y : List ℝ) :
    (bayesian_ei f params x Y
      = -((model_reduce2 (f params x)).1 - jnpMax Y - 0.1)
          * normCdf (((model_reduce2 (f params x)).1 - jnpMax Y - 0.1)
              / (model_reduce2 (f params x)).2)
        - (model_reduce2 (f params x)).2
          * normPdf (((model_reduce2 (f params x)).1 - jnpMax Y - 0.1)
              / (model_reduce2 (f params x)).2))
    ∧ (model_reduce2 (f params x)).2
      = ((f params x).map (fun v => v.getD 1 0 + (v.getD 0 0) ^ 2)).sum
          / ((f params x).length : ℝ)
        - (((f params x).map (fun v => v.getD 0 0)).sum
            / ((f params x).length : ℝ)) ^ 2 := by
  exact ⟨rfl, rfl⟩

/-! ### C5 -/

/-- C5 counterexample: with a forward function producing an ensemble output of
shape `(1, 2, 2)` — one member, a genuine batch of two examples — the
adversarial loss is the per-example vector of length 2, not a single scalar:
`jnp.sum(..., axis=0)` sums over the member axis only. -/
theorem adv_loss_not_scalar :
    (advLossFunc3 (fun (_ : Unit) _ => [[[0, 1], [0, 1]]])
      (fun _ _ _ => [[[0], [0]]]) () [[[0], [0]]] [0, 0]).length = 2 := by
  rfl

theorem deepEnsembleLoss3_length {P : Type*}
    (forward3 : P → List (List (List ℝ)) → List (List (List ℝ)))
    (params : P) (seqs : List (List (List ℝ))) (labels : List ℝ) (B : Nat)
    (h1 : forward3 params seqs ≠ [])
    (h2 : ∀ m ∈ forward3 params seqs, m.length = B)
    (h5 : labels.length = B) :
    (deepEnsembleLoss3 forward3 params seqs labels).length = B := by
  unfold deepEnsembleLoss3
  rw [axis0sum_length]
  obtain ⟨m0, rest, hout⟩ : ∃ m0 rest, forward3 params seqs = m0 :: rest := by
    cases h : forward3 params seqs with
    | nil => exact absurd h h1
    | cons a b => exact ⟨a, b, rfl⟩
  rw [hout]
  simp only [List.map_cons, List.headD_cons, List.length_map, List.length_zip]
  rw [h2 m0 (by rw [hout]; exact List.mem_cons_self _ _), h5]
  exact Nat.min_self B

/-- C5 (amended): for an ensemble output with a genuine batch axis the
adversarial loss returns one value per example — a vector whose length is the
per-member batch size, since the loss sums over the leading member axis only.
It is a single scalar precisely in the rank-2 tiled-single-example form the
trainer uses (where `advLossFunc` returns one real number). -/
theorem adv_loss_per_example {P : Type*}
    (forward3 : P → List (List (List ℝ)) → List (List (List ℝ)))
    (gradFn3 : P → List (List (List ℝ)) → List ℝ → List (List (List ℝ)))
    (params : P) (seqs : List (List (List ℝ))) (labels : List ℝ) (B : Nat)
    (h1 : forward3 params seqs ≠ [])
    (h2 : ∀ m ∈ forward3 params seqs, m.length = B)
    (h3 : forward3 params
        (fgsPerturb3 1e-5 seqs (gradFn3 params seqs labels)) ≠ [])
    (h4 : ∀ m ∈ forward3 params
        (fgsPerturb3 1e-5 seqs (gradFn3 params seqs labels)), m.length = B)
    (h5 : labels.length = B) :
    (advLossFunc3 forward3 gradFn3 params seqs labels).length = B := by
  show (((deepEnsembleLoss3 forward3 params seqs labels).zip
    (deepEnsembleLoss3 forward3 params
      (fgsPerturb3 1e-5 seqs (gradFn3 params seqs labels)) labels)).map
      (fun p => p.1 + p.2)).length = B
  rw [List.length_map, List.length_zip,
    deepEnsembleLoss3_length forward3 params seqs labels B h1 h2 h5,
    deepEnsembleLoss3_length forward3 params
      (fgsPerturb3 1e-5 seqs (gradFn3 params seqs labels)) labels B h3 h4 h5]
  exact Nat.min_self B

/-- Witness for C5 (amended) at a one-member, three-example batch. -/
theorem adv_loss_per_example_witness :
    (advLossFunc3 (fun (_ : Unit) _ => [[[0, 1], [0, 1], [0, 1]]])
      (fun _ _ _ => [[[0], [0], [0]]]) () [[[0], [0], [0]]]
      [0, 0, 0]).length = 3 := by
  exact adv_loss_per_example (fun (_ : Unit) _ => [[[0, 1], [0, 1], [0, 1]]])
    (fun _ _ _ => [[[0], [0], [0]]]) () [[[0], [0], [0]]] [0, 0, 0] 3
    (by simp) (by intro m hm; fin_cases hm; rfl)
    (by simp) (by intro m hm; fin_cases hm; rfl) rfl

/-! ### C7 -/

/-- C7: on equal-length inputs and any key, `shuffle_in_unison` succeeds and
there is a single permutation `p` of the indices with `a'[i] = a[p[i]]` and
`b'[i] = b[p[i]]` for every index `i`: the output pairs are a permutation of
the input pairs with the relative pairing preserved. -/
theorem shuffle_in_unison_pairing {K α β : Type*} (perm : K → Nat → List Nat)
    (da : α) (db : β) (key : K) (a : List α) (b : List β)
    (hlen : a.length = b.length)
    (hperm : (perm key a.length).Perm (List.range a.length)) :
    ∃ a2 b2, shuffle_in_unison perm da db key a b = .ok (a2, b2)
      ∧ ∃ p : List Nat, p.Perm (List.range a.length)
          ∧ a2.length = a.length ∧ b2.length = b.length
          ∧ ∀ i < a.length,
              a2.getD i da = a.getD (p.getD i 0) da
              ∧ b2.getD i db = b.getD (p.getD i 0) db := by
  have hok : shuffle_in_unison perm da db key a b
      = .ok ((perm key a.length).map (fun i => a.getD i da),
             (perm key a.length).map (fun i => b.getD i db)) := by
    unfold shuffle_in_unison
    rw [if_pos hlen]
  have hplen : (perm key a.length).length = a.length := by
    rw [hperm.length_eq, List.length_range]
  refine ⟨_, _, hok, perm key a.length, hperm, ?_, ?_, ?_⟩
  · rw [List.length_map, hplen]
  · rw [List.length_map, hplen, hlen]
  · intro i hi
    constructor
    · rw [getD_map_of_lt _ _ da 0 i (by rw [hplen]; exact hi)]
    · rw [getD_map_of_lt _ _ db 0 i (by rw [hplen]; exact hi)]

/-- Witness for C7 with the reversing permutation on two pairs. -/
theorem shuffle_in_unison_pairing_witness :
    ∃ a2 b2, shuffle_in_unison (fun (_ : Nat) n => (List.range n).reverse)
        (0 : Nat) (0 : Nat) 0 [10, 20] [7, 8] = .ok (a2, b2)
      ∧ ∃ p : List Nat, p.Perm (List.range ([10, 20] : List Nat).length)
          ∧ a2.length = ([10, 20] : List Nat).length
          ∧ b2.length = ([7, 8] : List Nat).length
          ∧ ∀ i < ([10, 20] : List Nat).length,
              a2.getD i 0 = ([10, 20] : List Nat).getD (p.getD i 0) 0
              ∧ b2.getD i 0 = ([7, 8] : List Nat).getD (p.getD i 0) 0 := by
  exact shuffle_in_unison_pairing (fun (_ : Nat) n => (List.range n).reverse)
    0 0 0 [10, 20] [7, 8] rfl (by decide)

/-! ### C6 and C8 -/

section TrainerProofs

variable {P S K : Type*}
variable (forward : P → List (List ℝ) → List (List ℝ))
variable (gradInput : P → List (List ℝ) → List ℝ → List (List ℝ))
variable (gradAdv : P → List (List ℝ) → List ℝ → P)
variable (initFn : K → List (List ℝ) → P)
variable (split : K → K × K)
variable (perm : K → Nat → List Nat)
variable (optInit : P → S)
variable (optUpdate : P → S → P → P × S)
variable (applyUpdates : P → P → P)

theorem epochSteps_lengths (val_seqs : List (List ℝ)) (val_labels : List ℝ) :
    ∀ (l : List (List ℝ × ℝ)) (sp : S × P),
      (epochSteps forward gradInput gradAdv optUpdate applyUpdates
        val_seqs val_labels sp l).2.1.length = l.length
      ∧ (epochSteps forward gradInput gradAdv optUpdate applyUpdates
        val_seqs val_labels sp l).2.2.length = l.length := by
  intro l
  induction l with
  | nil => intro sp; exact ⟨rfl, rfl⟩
  | cons x xs ih =>
    intro sp
    obtain ⟨seq, label⟩ := x
    simp only [epochSteps, List.length_cons]
    exact ⟨by rw [(ih _).1], by rw [(ih _).2]⟩

theorem epochLoop_ok_lengths (seqs : List (List ℝ)) (labels : List ℝ)
    (val_seqs : List (List ℝ)) (val_labels : List ℝ)
    (hperm : ∀ (k : K) (n : Nat), (perm k n).Perm (List.range n))
    (hlen : seqs.length = labels.length) :
    ∀ (n : Nat) (key : K) (sp : S × P),
      ∃ r, epochLoop forward gradInput gradAdv split perm optUpdate
          applyUpdates seqs labels val_seqs val_labels n key sp = .ok r
        ∧ r.2.1.length = n * labels.length
        ∧ r.2.2.length = n * labels.length := by
  intro n
  induction n with
  | zero => intro key sp; exact ⟨(sp, [], []), rfl, by simp, by simp⟩
  | succ n ih =>
    intro key sp
    have hok : shuffle_in_unison perm ([] : List ℝ) (0 : ℝ) ((split key).1)
        seqs labels
        = .ok ((perm ((split key).1) seqs.length).map (fun i => seqs.getD i []),
            (perm ((split key).1) seqs.length).map (fun i => labels.getD i 0))
        := by
      unfold shuffle_in_unison
      rw [if_pos hlen]
    set p := perm ((split key).1) seqs.length with hp
    set ss := p.map (fun i => seqs.getD i []) with hss
    set sl := p.map (fun i => labels.getD i 0) with hsl
    set st := epochSteps forward gradInput gradAdv optUpdate applyUpdates
      val_seqs val_labels sp (ss.zip sl) with hst
    obtain ⟨r2, hr2, hL1, hL2⟩ := ih ((split key).1) st.1
    have hzlen : (ss.zip sl).length = labels.length := by
      rw [List.length_zip, hss, hsl, List.length_map, List.length_map,
        (hperm _ _).length_eq, List.length_range, hlen, Nat.min_self]
    have hstepL := epochSteps_lengths forward gradInput gradAdv optUpdate
      applyUpdates val_seqs val_labels (ss.zip sl) sp
    refine ⟨(r2.1, st.2.1 ++ r2.2.1, st.2.2 ++ r2.2.2), ?_, ?_, ?_⟩
    · simp only [epochLoop]
      rw [hok]
      dsimp only
      rw [← hst, hr2]
    · rw [List.length_append, ← hst] at *
      rw [hstepL.1, hzlen, hL1]
      ring
    · rw [List.length_append, ← hst] at *
      rw [hstepL.2, hzlen, hL2]
      ring

/-- C6: on a training set of `n` examples (equal-length inputs and labels,
`jax.random.permutation` returning a permutation of the index range),
`ensemble_train` succeeds and returns a training-loss history and a
validation-loss history of exactly `n * 3` entries each — one entry appended
per training example per epoch, for the 3 epochs of this variant, not one per
epoch. -/
theorem ensemble_train_history_length (key : K) (seqs : List (List ℝ))
    (labels : List ℝ) (val_seqs : List (List ℝ)) (val_labels : List ℝ)
    (hperm : ∀ (k : K) (n : Nat), (perm k n).Perm (List.range n))
    (hlen : seqs.length = labels.length) :
    ∃ pr ls vls,
      ensemble_train forward gradInput gradAdv initFn split perm optInit
          optUpdate applyUpdates key seqs labels val_seqs val_labels
        = .ok (pr, ls, vls)
      ∧ ls.length = labels.length * 3 ∧ vls.length = labels.length * 3 := by
  obtain ⟨r, hr, h1, h2⟩ := epochLoop_ok_lengths forward gradInput gradAdv
    split perm optUpdate applyUpdates seqs labels val_seqs val_labels hperm
    hlen 3 ((split key).1)
    (optInit (initFn ((split key).1) seqs), initFn ((split key).1) seqs)
  refine ⟨r.1.2, r.2.1, r.2.2, ?_, by omega, by omega⟩
  simp only [ensemble_train]
  rw [hr]

/-- Witness for C6: a concrete 2-example training set, so both histories have
`2 * 3 = 6` entries. -/
theorem ensemble_train_history_length_witness :
    ∃ pr ls vls,
      ensemble_train (fun (_ : Unit) (_ : List (List ℝ)) => ([] : List (List ℝ)))
        (fun _ _ _ => []) (fun _ _ _ => ()) (fun (_ : Nat) _ => ())
        (fun k => (k, k)) (fun _ n => List.range n) (fun _ => (() : Unit))
        (fun _ s _ => ((), s)) (fun _ _ => ()) 0 [[1], [2]] [3, 4] [[5]] [6]
        = .ok (pr, ls, vls)
      ∧ ls.length = ([3, 4] : List ℝ).length * 3
      ∧ vls.length = ([3, 4] : List ℝ).length * 3 :=
  ensemble_train_history_length _ _ _ _ _ _ _ _ _ 0 [[1], [2]] [3, 4]
    [[5]] [6] (fun _ _ => List.Perm.refl _) rfl

theorem epochLoop_train_mismatch (seqs : List (List ℝ)) (labels : List ℝ)
    (val_seqs : List (List ℝ)) (val_labels : List ℝ)
    (hne : seqs.length ≠ labels.length) :
    ∀ (n : Nat) (key : K) (sp : S × P),
      epochLoop forward gradInput gradAdv split perm optUpdate applyUpdates
        seqs labels val_seqs val_labels (n + 1) key sp
      = .error "shuffle_in_unison length assertion failed" := by
  intro n key sp
  simp only [epochLoop]
  unfold shuffle_in_unison
  rw [if_neg hne]

/-- C8 (amended): when the training inputs and labels have differing lengths,
`ensemble_train` fails with the shuffle length assertion before any gradient
computation — the returned value is the assertion error whatever the gradient
functions and optimizer do (they are arbitrary here, so none of them was
consulted).  A validation length mismatch, by contrast, is not checked at all
(see the counterexample `ensemble_train_val_mismatch_ok`). -/
theorem ensemble_train_train_mismatch_fails (key : K) (seqs : List (List ℝ))
    (labels : List ℝ) (val_seqs : List (List ℝ)) (val_labels : List ℝ)
    (hne : seqs.length ≠ labels.length) :
    ensemble_train forward gradInput gradAdv initFn split perm optInit
        optUpdate applyUpdates key seqs labels val_seqs val_labels
      = .error "shuffle_in_unison length assertion failed" := by
  simp only [ensemble_train]
  rw [show (3 : Nat) = 2 + 1 from rfl]
  rw [epochLoop_train_mismatch forward gradInput gradAdv split perm optUpdate
    applyUpdates seqs labels val_seqs val_labels hne 2 ((split key).1)
    (optInit (initFn ((split key).1) seqs), initFn ((split key).1) seqs)]

/-- Witness for C8 (amended): 1 training input against 2 training labels. -/
theorem ensemble_train_train_mismatch_fails_witness :
    ensemble_train (fun (_ : Unit) (_ : List (List ℝ)) => ([] : List (List ℝ)))
      (fun _ _ _ => []) (fun _ _ _ => ()) (fun (_ : Nat) _ => ())
      (fun k => (k, k)) (fun _ n => List.range n) (fun _ => (() : Unit))
      (fun _ s _ => ((), s)) (fun _ _ => ()) 0 [[1]] [3, 4] [[5]] [6]
      = .error "shuffle_in_unison length assertion failed" :=
  ensemble_train_train_mismatch_fails _ _ _ _ _ _ _ _ _ 0 [[1]] [3, 4]
    [[5]] [6] (by decide)

/-- C8 counterexample: training inputs and labels of equal length but
validation inputs of length 1 against validation labels of length 2:
`ensemble_train` does not fail — the validation lengths are never compared
(the source indexes the validation inputs by the label count, which clamps on
JAX arrays) — so a validation length mismatch does not fail fast, nor at
all. -/
theorem ensemble_train_val_mismatch_ok :
    ∃ r, ensemble_train
      (fun (_ : Unit) (_ : List (List ℝ)) => ([] : List (List ℝ)))
      (fun _ _ _ => []) (fun _ _ _ => ()) (fun (_ : Nat) _ => ())
      (fun k => (k, k)) (fun _ n => List.range n) (fun _ => (() : Unit))
      (fun _ s _ => ((), s)) (fun _ _ => ()) 0 [[1], [2]] [3, 4] [[5]] [6, 7]
      = .ok r := by
  obtain ⟨r, hr, h1, h2⟩ := epochLoop_ok_lengths
    (fun (_ : Unit) (_ : List (List ℝ)) => ([] : List (List ℝ)))
    (fun _ _ _ => []) (fun _ _ _ => ()) (fun k => (k, k))
    (fun _ n => List.range n) (fun _ s _ => ((), s)) (fun _ _ => ())
    [[1], [2]] [3, 4] [[5]] [6, 7] (fun _ _ => List.Perm.refl _) rfl 3
    0 ((), ())
  refine ⟨(r.1.2, r.2.1, r.2.2), ?_⟩
  simp only [ensemble_train]
  rw [hr]

end TrainerProofs

/-! ### C10 -/

section BayesOptProofs

variable {P OS K : Type*}
variable (prngKeyFn : Nat → K)
variable (splitK : K → K × K)
variable (randn : K → Nat → Nat → List (List ℝ))
variable (adamInit : List (List ℝ) → OS)
variable (adamUpdate : Nat → List (List ℝ) → OS → OS)
variable (getParams : OS → List (List ℝ))
variable (gradEI : (P → List (List ℝ) → List (List ℝ)) → P →
  List (List ℝ) → List ℝ → List (List ℝ))

/-- C10: `bayes_opt` takes no random-seed argument — its initial candidate is
`bayesOptInitX`, a constant of the random-library primitives alone (derived
from the fixed key `PRNGKey 0`) with shape `(1, 1900)`, in which `f`,
`params` and `labels` do not occur; the returned embedding is the
deterministic 50-step optimizer unfolding from that constant, so two calls
with equal arguments return identical vectors. -/
theorem bayes_opt_fixed_seed
    (hshape : ∀ (k : K) (m n : Nat), (randn k m n).length = m
      ∧ ∀ r ∈ randn k m n, r.length = n)
    (f : P → List (List ℝ) → List (List ℝ)) (params : P) (labels : List ℝ) :
    (bayesOptInitX prngKeyFn splitK randn).length = 1
    ∧ (∀ r ∈ bayesOptInitX prngKeyFn splitK randn, r.length = 1900)
    ∧ bayes_opt prngKeyFn splitK randn adamInit adamUpdate getParams gradEI
        f params labels
      = getParams ((List.range 50).foldl
          (fun st i => adamUpdate i (gradEI f params (getParams st) labels) st)
          (adamInit (bayesOptInitX prngKeyFn splitK randn)))
    ∧ ∀ (f2 : P → List (List ℝ) → List (List ℝ)) (params2 : P)
        (labels2 : List ℝ), f = f2 → params = params2 → labels = labels2 →
        bayes_opt prngKeyFn splitK randn adamInit adamUpdate getParams gradEI
          f params labels
        = bayes_opt prngKeyFn splitK randn adamInit adamUpdate getParams
            gradEI f2 params2 labels2 := by
  refine ⟨(hshape _ 1 1900).1, (hshape _ 1 1900).2, rfl, ?_⟩
  intro f2 p2 l2 h1 h2 h3
  rw [h1, h2, h3]

/-- Witness for C10 with concrete (all-zeros) random primitives. -/
theorem bayes_opt_fixed_seed_witness :
    (∀ (k : Nat) (m n : Nat),
      ((fun (_ : Nat) (m n : Nat) =>
        List.replicate m (List.replicate n (0 : ℝ))) k m n).length = m
      ∧ ∀ r ∈ (fun (_ : Nat) (m n : Nat) =>
          List.replicate m (List.replicate n (0 : ℝ))) k m n, r.length = n)
    ∧ (bayesOptInitX (id : Nat → Nat) (fun k => (k, k))
        (fun (_ : Nat) (m n : Nat) =>
          List.replicate m (List.replicate n (0 : ℝ)))).length = 1 := by
  have hshape : ∀ (k : Nat) (m n : Nat),
      ((fun (_ : Nat) (m n : Nat) =>
        List.replicate m (List.replicate n (0 : ℝ))) k m n).length = m
      ∧ ∀ r ∈ (fun (_ : Nat) (m n : Nat) =>
          List.replicate m (List.replicate n (0 : ℝ))) k m n, r.length = n := by
    intro k m n
    refine ⟨by simp, ?_⟩
    intro r hr
    rw [List.eq_of_mem_replicate hr]
    simp
  exact ⟨hshape, (bayes_opt_fixed_seed (id : Nat → Nat) (fun k => (k, k))
    (fun _ m n => List.replicate m (List.replicate n (0 : ℝ)))
    (id : List (List ℝ) → List (List ℝ)) (fun _ _ s => s)
    (id : List (List ℝ) → List (List ℝ)) (fun _ _ _ _ => [])
    hshape (fun _ _ => ([] : List (List ℝ))) () ([] : List ℝ)).1⟩

end BayesOptProofs

end

end AlpDesign
